import Mathlib

/-!
Verification of the scrobble-me-this command-line tool (src/index.mjs).

The program is embedded shallowly:
* the signature engine (createSignature) is a pure function, parameterised by the
  digest function, since the MD5 implementation lives in the external node:crypto
  library and is not part of this repository;
* the scrobble pipeline (authentication, CSV row resolution, the per-row loop with
  back-dated timestamps, the 200 ms pause, the success/error counters, exit codes)
  is modelled as a pure interpreter producing a trace of observable events, driven
  by an environment that fixes the outcomes of the external calls (authentication
  result, read/parse result, per-row submission results, current Unix time).
-/

namespace Scrobble

/-- Lexicographic order on character lists; models the ascending string ordering
used by the comparator in createSignature (localeCompare, modelled as
code-point ordering). -/
def charListLe : List Char → List Char → Bool
  | [], _ => true
  | _ :: _, [] => false
  | a :: as, b :: bs =>
    if a < b then true else if b < a then false else charListLe as bs

/-- Key comparison for sorting signature parameters. -/
def keyLe (a b : String) : Bool := charListLe a.data b.data

/-- Ordering of parameter entries by key, as in the comparator
fun a b => a.localeCompare b applied to the keys. -/
def entryLe (p q : String × String) : Prop := keyLe p.1 q.1 = true

instance : DecidableRel entryLe := fun p q => by
  unfold entryLe; infer_instance

/-- Sorting of the parameter entries: Object.entries(params).sort on keys.
The JavaScript sort is stable; it is modelled by insertion sort, which is also
stable, so both produce the same output for the same comparator. -/
def sortEntries (params : List (String × String)) : List (String × String) :=
  List.insertionSort entryLe params

/-- Concatenation of a list of strings, the model of Array.prototype.join
with the empty separator. -/
def joinAll : List String → String
  | [] => ""
  | s :: rest => s ++ joinAll rest

/-- createSignature from src/index.mjs: sort the entries by key, flatten them to
an alternating key/value list, append the shared secret, join and digest.
The digest argument stands for the external md5 hex function from node:crypto. -/
def createSignature (digest : String → String)
    (params : List (String × String)) (apiSecret : String) : String :=
  digest (joinAll ((sortEntries params).flatMap (fun p => [p.1, p.2]) ++ [apiSecret]))

/-- The signature input as the spec words it: concatenate each key immediately
followed by its value over the sorted entries, then append the shared secret. -/
def specSignatureInput (params : List (String × String)) (apiSecret : String) : String :=
  joinAll ((sortEntries params).map (fun p => p.1 ++ p.2)) ++ apiSecret

/-- JavaScript truthiness test for a possibly absent string: undefined and the
empty string are the falsy cases that occur in the program. -/
def falsy : Option String → Bool
  | none => true
  | some s => s = ""

/-- The JavaScript expression a || b on possibly absent strings: a when a is
truthy, otherwise b. -/
def jsOr (a b : Option String) : Option String :=
  match a with
  | some s => if s = "" then b else some s
  | none => b

/-- A parsed CSV record: a mapping from header names to fields (header mode) or
an ordered field sequence (positional mode). -/
inductive Record
  | byName (fields : List (String × String))
  | positional (fields : List String)
  deriving DecidableEq

/-- Object.values of a record: field values in insertion order. -/
def objectValues : Record → List String
  | Record.byName fs => fs.map Prod.snd
  | Record.positional fs => fs

/-- Property access record[k] on a record: undefined (none) on an array. -/
def getField : Record → String → Option String
  | Record.byName fs, k => fs.lookup k
  | Record.positional _, _ => none

/-- Artist resolution from src/index.mjs: record.artist || record.Artist in
header mode, Object.values(record)[0] otherwise. -/
def resolveArtist (header : Bool) (r : Record) : Option String :=
  if header then jsOr (getField r "artist") (getField r "Artist")
  else (objectValues r).get? 0

/-- Track resolution from src/index.mjs:
record.track || record.Track || record.title || record.Title in header mode,
Object.values(record)[1] otherwise. -/
def resolveTrack (header : Bool) (r : Record) : Option String :=
  if header then
    jsOr (getField r "track")
      (jsOr (getField r "Track") (jsOr (getField r "title") (getField r "Title")))
  else (objectValues r).get? 1

/-- Observable events of a run: stdout writes, stderr writes, the authentication
request, a scrobble submission with its parameters, and the fixed pause. -/
inductive Event
  | out (s : String)
  | err (s : String)
  | authCall
  | scrobbleCall (i : Nat) (artist track : String) (ts : Int)
  | delayMs (n : Nat)
  deriving DecidableEq

/-- Outcome of processing one row: which of the two counters it increments. -/
inductive RowOutcome
  | success
  | failure
  deriving DecidableEq

def isAuthCall : Event → Bool
  | Event.authCall => true
  | _ => false

def isScrobble : Event → Bool
  | Event.scrobbleCall _ _ _ _ => true
  | _ => false

def isDelay : Event → Bool
  | Event.delayMs _ => true
  | _ => false

/-- The back-dated timestamp of row i out of N at current Unix time now:
Math.floor(Date.now() / 1000) - (records.length - i) * 30. -/
def timestampOf (now N i : Nat) : Int :=
  (now : Int) - ((N : Int) - (i : Int)) * 30

/-- One iteration of the scrobble loop body for row i: resolve the record; on a
falsy artist or track report the error and count a failure; otherwise submit
(the submit argument fixes the remote outcome for each row), report, and on
success pause 200 ms. -/
def rowEvents (header : Bool) (now N : Nat) (submit : Nat → Except String Unit)
    (i : Nat) (r : Record) : List Event × RowOutcome :=
  if falsy (resolveArtist header r) || falsy (resolveTrack header r) then
    ([Event.err ("Error: Could not determine artist and track from line "
        ++ toString (i + 1) ++ "\n")],
     RowOutcome.failure)
  else
    match submit i with
    | Except.ok _ =>
        ([Event.scrobbleCall i ((resolveArtist header r).getD "")
            ((resolveTrack header r).getD "") (timestampOf now N i),
          Event.out ("Scrobbled: " ++ (resolveArtist header r).getD ""
            ++ " - " ++ (resolveTrack header r).getD "" ++ "\n"),
          Event.delayMs 200],
         RowOutcome.success)
    | Except.error m =>
        ([Event.scrobbleCall i ((resolveArtist header r).getD "")
            ((resolveTrack header r).getD "") (timestampOf now N i),
          Event.err ("Error scrobbling \"" ++ (resolveArtist header r).getD ""
            ++ " - " ++ (resolveTrack header r).getD "" ++ "\": " ++ m ++ "\n")],
         RowOutcome.failure)

/-- The scrobble loop over the remaining records, starting at row index i:
returns the emitted events and the (successCount, errorCount) pair. -/
def scrobbleLoop (header : Bool) (now N : Nat) (submit : Nat → Except String Unit) :
    Nat → List Record → List Event × Nat × Nat
  | _, [] => ([], 0, 0)
  | i, r :: rs =>
    let row := rowEvents header now N submit i r
    let rest := scrobbleLoop header now N submit (i + 1) rs
    (row.1 ++ rest.1,
     (if row.2 = RowOutcome.success then 1 else 0) + rest.2.1,
     (if row.2 = RowOutcome.failure then 1 else 0) + rest.2.2)

/-- The resolved command-line options (the values object of parseArgs); a string
option is none when the flag was not given. -/
structure Config where
  apiKey : Option String
  apiSecret : Option String
  username : Option String
  password : Option String
  delimiter : String
  header : Bool
  debug : Bool
  help : Bool

/-- The required-flag check: the first required option whose value is falsy, in
the declaration order of the options object. -/
def missingRequired (c : Config) : Option String :=
  if falsy c.apiKey then some "api-key"
  else if falsy c.apiSecret then some "api-secret"
  else if falsy c.username then some "username"
  else if falsy c.password then some "password"
  else none

/-- Outcomes of the external calls of one run: the authentication result (error
message or session key), the combined read/parse result (error message or
records), the current Unix time, and the remote outcome of the submission of
each row. -/
structure Env where
  authResult : Except String String
  readParse : Except String (List Record)
  now : Nat
  submit : Nat → Except String Unit

/-- How the process ends: a clean exit with a code, or an unhandled fault
(debug mode rethrows the top-level error). -/
inductive Outcome
  | exited (code : Nat)
  | faulted (msg : String)
  deriving DecidableEq

structure RunResult where
  events : List Event
  outcome : Outcome

/-- The help text written by printHelp; its exact content is not load-bearing
for any claim and is abridged here. -/
def helpText : String :=
  "Usage:\nscrobble-me-this OPTIONS CSV_FILE\ncat CSV_FILE | scrobble-me-this OPTIONS\n"

/-- The top level of src/index.mjs: print help and exit 0; check required flags
and exit 1 on the first missing one; otherwise authenticate, read and parse the
input, run the scrobble loop and print the summary; a top-level failure is
reported to stderr and exits 1, or propagates as a fault in debug mode. -/
def runMain (c : Config) (env : Env) : RunResult :=
  if c.help then
    { events := [Event.out helpText], outcome := Outcome.exited 0 }
  else
    match missingRequired c with
    | some p =>
        { events := [Event.err ("Error: " ++ p ++ " is required\n")],
          outcome := Outcome.exited 1 }
    | none =>
      match env.authResult with
      | Except.error m =>
          { events := [Event.out "Authenticating with Last.fm...\n", Event.authCall,
              Event.err ("Error: " ++ m ++ "\n")],
            outcome := if c.debug then Outcome.faulted m else Outcome.exited 1 }
      | Except.ok _ =>
        match env.readParse with
        | Except.error m =>
            { events := [Event.out "Authenticating with Last.fm...\n", Event.authCall,
                Event.out "Authentication successful\n",
                Event.err ("Error: " ++ m ++ "\n")],
              outcome := if c.debug then Outcome.faulted m else Outcome.exited 1 }
        | Except.ok records =>
          let res := scrobbleLoop c.header env.now records.length env.submit 0 records
          { events := [Event.out "Authenticating with Last.fm...\n", Event.authCall,
              Event.out "Authentication successful\n",
              Event.out ("Found " ++ toString records.length ++ " tracks to scrobble\n")]
              ++ res.1
              ++ [Event.out ("\nScrobbling complete: " ++ toString res.2.1
                  ++ " successful, " ++ toString res.2.2 ++ " failed\n")],
            outcome := Outcome.exited 0 }

/-- Truthy field lookup, for the spec-side resolution: a field counts as a match
only when present and non-empty (the spec treats absent, empty or otherwise
falsy values as missing). -/
def truthyLookup (fs : List (String × String)) (k : String) : Option String :=
  match fs.lookup k with
  | some v => if v = "" then none else some v
  | none => none

/-- First truthy match among a priority list of header names, as the spec words
the header-mode resolution. -/
def firstMatch (fs : List (String × String)) : List String → Option String
  | [] => none
  | k :: ks =>
    match truthyLookup fs k with
    | some v => some v
    | none => firstMatch fs ks

/-- Spec-side artist resolution in header mode. -/
def specArtist (fs : List (String × String)) : Option String :=
  firstMatch fs ["artist", "Artist"]

/-- Spec-side track resolution in header mode. -/
def specTrack (fs : List (String × String)) : Option String :=
  firstMatch fs ["track", "Track", "title", "Title"]

/-- Normalisation of a resolved value: a falsy result (absent or empty) counts
as no result. -/
def normOpt (o : Option String) : Option String :=
  if falsy o then none else o

/-- Splitting a character list on a separator character. -/
def splitOnCharList (sep : Char) : List Char → List (List Char)
  | [] => [[]]
  | c :: cs =>
    let rest := splitOnCharList sep cs
    if c = sep then [] :: rest
    else
      match rest with
      | [] => [[c]]
      | f :: fs => (c :: f) :: fs

def isWs (c : Char) : Bool :=
  c = ' ' || c = '\t' || c = '\r' || c = '\n'

/-- Whitespace trimming of a field. -/
def trimChars (cs : List Char) : List Char :=
  ((cs.dropWhile isWs).reverse.dropWhile isWs).reverse

/-- Modelled from the spec: the CSV parsing performed by the external csv-parse
library (a dependency, not part of this repository), restricted to simple
unquoted input as described in the spec: split into lines, skip blank lines,
split each line on the single-character delimiter, trim whitespace around each
field; with the header flag on, the first row provides the column names for the
mappings of the following rows. -/
def parseCsvModel (delim : Char) (header : Bool) (csv : String) : List Record :=
  let lines := (splitOnCharList '\n' csv.data).filter (fun l => trimChars l ≠ [])
  let rows := lines.map (fun l =>
    (splitOnCharList delim l).map (fun f => String.mk (trimChars f)))
  if header then
    match rows with
    | [] => []
    | hdr :: rest => rest.map (fun r => Record.byName (hdr.zip r))
  else
    rows.map Record.positional

/-- A configuration with all required flags present, header mode off. -/
def cfgOk : Config :=
  { apiKey := some "k", apiSecret := some "s", username := some "u",
    password := some "p", delimiter := ",", header := false,
    debug := false, help := false }

/-- cfgOk with debug mode on. -/
def cfgDebug : Config :=
  { cfgOk with debug := true }

/-- cfgOk with the help flag set. -/
def cfgHelp : Config :=
  { cfgOk with help := true }

/-- A configuration missing the required api-key flag. -/
def cfgMissing : Config :=
  { cfgOk with apiKey := none }

/-- A submission environment where every row succeeds remotely. -/
def submitAllOk : Nat → Except String Unit := fun _ => Except.ok ()

/-- A submission environment where exactly row index 1 (the second row) fails
remotely. -/
def submitFailAt1 : Nat → Except String Unit :=
  fun i => if i = 1 then Except.error "remote error" else Except.ok ()

/-- A submission environment where every row fails remotely. -/
def submitAllFail : Nat → Except String Unit := fun _ => Except.error "remote error"

/-- A two-field positional record. -/
def recAT : Record := Record.positional ["A", "T"]

/-- A one-field positional record: its track resolves to undefined. -/
def recOneCol : Record := Record.positional ["OnlyArtist"]

/-- Environment: authentication succeeds, one two-field record, every
submission succeeds, current time 1000. -/
def envOne : Env :=
  { authResult := Except.ok "sk",
    readParse := Except.ok [recAT],
    now := 1000,
    submit := submitAllOk }

/-- Environment: authentication fails. -/
def envAuthFail : Env :=
  { envOne with authResult := Except.error "auth failed" }

/-- Environment: three records, the second submission fails remotely. -/
def envThree : Env :=
  { authResult := Except.ok "sk",
    readParse := Except.ok [Record.positional ["A1", "T1"],
      Record.positional ["A2", "T2"], Record.positional ["A3", "T3"]],
    now := 1000,
    submit := submitFailAt1 }

theorem charListLe_total :
    ∀ as bs : List Char, charListLe as bs = true ∨ charListLe bs as = true
  | [], _ => Or.inl rfl
  | _ :: _, [] => Or.inr rfl
  | a :: as, b :: bs => by
    rcases lt_trichotomy a b with h | h | h
    · exact Or.inl (by simp [charListLe, h])
    · subst h
      rcases charListLe_total as bs with ih | ih
      · exact Or.inl (by simp [charListLe, ih])
      · exact Or.inr (by simp [charListLe, ih])
    · exact Or.inr (by simp [charListLe, h])

theorem charListLe_trans :
    ∀ as bs cs : List Char, charListLe as bs = true → charListLe bs cs = true →
      charListLe as cs = true
  | [], _, _, _, _ => rfl
  | _ :: _, [], _, h1, _ => by simp [charListLe] at h1
  | _ :: _, _ :: _, [], _, h2 => by simp [charListLe] at h2
  | a :: as, b :: bs, c :: cs, h1, h2 => by
    rcases lt_trichotomy a b with hab | hab | hab
    · rcases lt_trichotomy b c with hbc | hbc | hbc
      · simp [charListLe, lt_trans hab hbc]
      · subst hbc; simp [charListLe, hab]
      · simp [charListLe, not_lt_of_gt hbc, hbc] at h2
    · subst hab
      rcases lt_trichotomy a c with hac | hac | hac
      · simp [charListLe, hac]
      · subst hac
        simp [charListLe] at h1 h2 ⊢
        exact charListLe_trans as bs cs h1 h2
      · simp [charListLe, not_lt_of_gt hac, hac] at h2
    · simp [charListLe, not_lt_of_gt hab, hab] at h1

theorem charListLe_antisymm :
    ∀ as bs : List Char, charListLe as bs = true → charListLe bs as = true → as = bs
  | [], [], _, _ => rfl
  | [], _ :: _, _, h2 => by simp [charListLe] at h2
  | _ :: _, [], h1, _ => by simp [charListLe] at h1
  | a :: as, b :: bs, h1, h2 => by
    rcases lt_trichotomy a b with hab | hab | hab
    · simp [charListLe, not_lt_of_gt hab, hab] at h2
    · subst hab
      simp [charListLe] at h1 h2
      rw [charListLe_antisymm as bs h1 h2]
    · simp [charListLe, not_lt_of_gt hab, hab] at h1

theorem keyLe_antisymm (a b : String) (h1 : keyLe a b = true) (h2 : keyLe b a = true) :
    a = b := by
  have hdata : a.data = b.data := charListLe_antisymm a.data b.data h1 h2
  cases a
  cases b
  exact congrArg String.mk hdata

instance : IsTotal (String × String) entryLe :=
  ⟨fun p q => charListLe_total p.1.data q.1.data⟩

instance : IsTrans (String × String) entryLe :=
  ⟨fun _ _ _ h1 h2 => charListLe_trans _ _ _ h1 h2⟩

theorem joinAll_flatMap_pairs :
    ∀ (l : List (String × String)) (s : String),
      joinAll (l.flatMap (fun p => [p.1, p.2]) ++ [s]) =
        joinAll (l.map (fun p => p.1 ++ p.2)) ++ s
  | [], s => by simp [joinAll]
  | p :: l, s => by
    have ih := joinAll_flatMap_pairs l s
    simp only [List.flatMap, List.map_cons, List.flatten_cons, List.append_eq,
      List.cons_append, List.nil_append, List.append_assoc, joinAll] at ih ⊢
    rw [ih]
    simp [String.append_assoc]

/-- C1: for every parameter mapping and shared secret, createSignature equals
the digest of the string formed by sorting the entries ascending by key,
concatenating each key immediately followed by its value in that order, and
appending the secret; the digest argument stands for the lowercase-hex 128-bit
MD5 function supplied by the external node:crypto library. -/
theorem createSignature_is_digest_of_sorted_concat
    (digest : String → String) (P : List (String × String)) (S : String) :
    createSignature digest P S = digest (specSignatureInput P S) := by
  unfold createSignature specSignatureInput
  rw [joinAll_flatMap_pairs]

theorem sortEntries_eq_of_perm (P Q : List (String × String))
    (hperm : P.Perm Q) (hnodup : (P.map Prod.fst).Nodup) :
    sortEntries P = sortEntries Q := by
  have hP : (sortEntries P).Perm P := List.perm_insertionSort entryLe P
  have hQ : (sortEntries Q).Perm Q := List.perm_insertionSort entryLe Q
  have hPQ : (sortEntries P).Perm (sortEntries Q) := hP.trans (hperm.trans hQ.symm)
  have hnodupQ : (Q.map Prod.fst).Nodup := ((hperm.map Prod.fst).nodup_iff).mp hnodup
  have hne_P : List.Pairwise (fun p q : String × String => p.1 ≠ q.1) P :=
    List.pairwise_map.mp hnodup
  have hne_Q : List.Pairwise (fun p q : String × String => p.1 ≠ q.1) Q :=
    List.pairwise_map.mp hnodupQ
  have hne_sP : List.Pairwise (fun p q : String × String => p.1 ≠ q.1) (sortEntries P) :=
    (List.Perm.pairwise_iff (fun h => Ne.symm h) hP).mpr hne_P
  have hne_sQ : List.Pairwise (fun p q : String × String => p.1 ≠ q.1) (sortEntries Q) :=
    (List.Perm.pairwise_iff (fun h => Ne.symm h) hQ).mpr hne_Q
  have hs_P : List.Sorted entryLe (sortEntries P) := List.sorted_insertionSort entryLe P
  have hs_Q : List.Sorted entryLe (sortEntries Q) := List.sorted_insertionSort entryLe Q
  haveI : IsAntisymm (String × String) (fun p q => entryLe p q ∧ p.1 ≠ q.1) := by
    refine ⟨?_⟩
    rintro a b ⟨h1, hne⟩ ⟨h2, _⟩
    exact absurd (keyLe_antisymm _ _ h1 h2) hne
  exact List.eq_of_perm_of_sorted hPQ (hs_P.and hne_sP) (hs_Q.and hne_sQ)

/-- C2: for every parameter mapping, every permutation of its entries and every
secret, the signature is unchanged; the keys of a mapping are pairwise
distinct, which the Nodup hypothesis records. -/
theorem createSignature_perm_invariant (digest : String → String) (S : String)
    (P Q : List (String × String)) (hperm : P.Perm Q)
    (hnodup : (P.map Prod.fst).Nodup) :
    createSignature digest P S = createSignature digest Q S := by
  unfold createSignature
  rw [sortEntries_eq_of_perm P Q hperm hnodup]

theorem createSignature_perm_invariant_witness :
    createSignature id [("b", "2"), ("a", "1")] "s" =
      createSignature id [("a", "1"), ("b", "2")] "s" :=
  createSignature_perm_invariant id "s" _ _
    (List.Perm.swap ("a", "1") ("b", "2") []) (by decide)

theorem rowEvents_cases (header : Bool) (now N : Nat)
    (submit : Nat → Except String Unit) (i : Nat) (r : Record) :
    (∃ msg, rowEvents header now N submit i r = ([Event.err msg], RowOutcome.failure))
    ∨ (rowEvents header now N submit i r =
        ([Event.scrobbleCall i ((resolveArtist header r).getD "")
            ((resolveTrack header r).getD "") (timestampOf now N i),
          Event.out ("Scrobbled: " ++ (resolveArtist header r).getD ""
            ++ " - " ++ (resolveTrack header r).getD "" ++ "\n"),
          Event.delayMs 200], RowOutcome.success))
    ∨ (∃ msg, rowEvents header now N submit i r =
        ([Event.scrobbleCall i ((resolveArtist header r).getD "")
            ((resolveTrack header r).getD "") (timestampOf now N i),
          Event.err msg], RowOutcome.failure)) := by
  unfold rowEvents
  split
  · exact Or.inl ⟨_, rfl⟩
  · split
    · exact Or.inr (Or.inl rfl)
    · exact Or.inr (Or.inr ⟨_, rfl⟩)

theorem rowEvents_delay_count (header : Bool) (now N : Nat)
    (submit : Nat → Except String Unit) (i : Nat) (r : Record) :
    ((rowEvents header now N submit i r).1.countP isDelay) =
      (if (rowEvents header now N submit i r).2 = RowOutcome.success then 1 else 0) := by
  rcases rowEvents_cases header now N submit i r with ⟨msg, h⟩ | h | ⟨msg, h⟩ <;>
    rw [h] <;> simp [isDelay]

theorem rowEvents_countP_authCall (header : Bool) (now N : Nat)
    (submit : Nat → Except String Unit) (i : Nat) (r : Record) :
    ((rowEvents header now N submit i r).1.countP isAuthCall) = 0 := by
  rcases rowEvents_cases header now N submit i r with ⟨msg, h⟩ | h | ⟨msg, h⟩ <;>
    rw [h] <;> simp [isAuthCall]

theorem scrobbleLoop_countP_authCall (header : Bool) (now N : Nat)
    (submit : Nat → Except String Unit) :
    ∀ (rs : List Record) (i : Nat),
      ((scrobbleLoop header now N submit i rs).1.countP isAuthCall) = 0
  | [], _ => rfl
  | r :: rs, i => by
    have ih := scrobbleLoop_countP_authCall header now N submit rs (i + 1)
    have hrow := rowEvents_countP_authCall header now N submit i r
    simp only [scrobbleLoop, List.countP_append]
    omega

theorem scrobbleLoop_counts (header : Bool) (now N : Nat)
    (submit : Nat → Except String Unit) :
    ∀ (rs : List Record) (i : Nat),
      (scrobbleLoop header now N submit i rs).2.1
        + (scrobbleLoop header now N submit i rs).2.2 = rs.length
  | [], _ => rfl
  | r :: rs, i => by
    have ih := scrobbleLoop_counts header now N submit rs (i + 1)
    simp only [scrobbleLoop, List.length_cons]
    cases h : (rowEvents header now N submit i r).2 <;> simp [h] <;> omega

/-- C6: a record whose resolved artist or resolved track is falsy is reported
on stderr with its 1-based row number, increments the error counter, issues no
submission, and the loop continues with the remaining rows. -/
theorem resolution_failure_skips_row (header : Bool) (now N : Nat)
    (submit : Nat → Except String Unit) (i : Nat) (r : Record) (rs : List Record)
    (hfail : (falsy (resolveArtist header r) || falsy (resolveTrack header r)) = true) :
    scrobbleLoop header now N submit i (r :: rs) =
      (Event.err ("Error: Could not determine artist and track from line "
          ++ toString (i + 1) ++ "\n") :: (scrobbleLoop header now N submit (i + 1) rs).1,
       (scrobbleLoop header now N submit (i + 1) rs).2.1,
       1 + (scrobbleLoop header now N submit (i + 1) rs).2.2) := by
  simp [scrobbleLoop, rowEvents, hfail]

theorem resolution_failure_skips_row_witness :
    scrobbleLoop false 1000 1 submitAllOk 0 [recOneCol] =
      ([Event.err "Error: Could not determine artist and track from line 1\n"], 0, 1) := by
  rw [resolution_failure_skips_row false 1000 1 submitAllOk 0 recOneCol [] (by decide)]
  decide

/-- C9: the fixed 200 ms pause happens exactly after a successful submission,
as the last action of the row, hence before the next row is processed; it never
happens after a resolution failure or a submission failure, and over a whole
run the number of pauses equals the number of successes. -/
theorem delay_only_after_success :
    (∀ header now N submit i r,
        (rowEvents header now N submit i r).2 = RowOutcome.success →
        (rowEvents header now N submit i r).1 =
          [Event.scrobbleCall i ((resolveArtist header r).getD "")
              ((resolveTrack header r).getD "") (timestampOf now N i),
            Event.out ("Scrobbled: " ++ (resolveArtist header r).getD ""
              ++ " - " ++ (resolveTrack header r).getD "" ++ "\n"),
            Event.delayMs 200])
    ∧ (∀ header now N submit i r,
        (rowEvents header now N submit i r).2 = RowOutcome.failure →
        ∀ n, Event.delayMs n ∉ (rowEvents header now N submit i r).1)
    ∧ (∀ header now N submit i rs,
        ((scrobbleLoop header now N submit i rs).1.countP isDelay) =
          (scrobbleLoop header now N submit i rs).2.1) := by
  refine ⟨?_, ?_, ?_⟩
  · intro header now N submit i r hsucc
    rcases rowEvents_cases header now N submit i r with ⟨msg, h⟩ | h | ⟨msg, h⟩
    · rw [h] at hsucc; simp at hsucc
    · rw [h]
    · rw [h] at hsucc; simp at hsucc
  · intro header now N submit i r hfailure n
    rcases rowEvents_cases header now N submit i r with ⟨msg, h⟩ | h | ⟨msg, h⟩
    · rw [h]; simp
    · rw [h] at hfailure; simp at hfailure
    · rw [h]; simp
  · intro header now N submit i rs
    induction rs generalizing i with
    | nil => rfl
    | cons r rs ih =>
      have hrow := rowEvents_delay_count header now N submit i r
      simp only [scrobbleLoop, List.countP_append]
      rw [hrow, ih (i + 1)]

theorem delay_only_after_success_witness :
    (rowEvents false 1000 1 submitAllOk 0 recAT).1 =
      [Event.scrobbleCall 0 "A" "T" 970, Event.out "Scrobbled: A - T\n", Event.delayMs 200]
    ∧ Event.delayMs 200 ∉ (rowEvents false 1000 1 submitAllFail 0 recAT).1
    ∧ Event.delayMs 200 ∉ (rowEvents false 1000 1 submitAllOk 0 recOneCol).1 := by
  refine ⟨?_, ?_, ?_⟩
  · rw [delay_only_after_success.1 false 1000 1 submitAllOk 0 recAT (by decide)]
    decide
  · exact delay_only_after_success.2.1 false 1000 1 submitAllFail 0 recAT (by decide) 200
  · exact delay_only_after_success.2.1 false 1000 1 submitAllOk 0 recOneCol (by decide) 200

/-- C10: in every run that reaches the scrobble loop with N parsed records,
each record increments exactly one of the two counters, so at the final summary
successCount plus errorCount equals N, and the emitted summary line carries
exactly those totals. -/
theorem counts_account_all_records (c : Config) (env : Env) (records : List Record)
    (k : String) (hhelp : c.help = false) (hreq : missingRequired c = none)
    (hauth : env.authResult = Except.ok k) (hparse : env.readParse = Except.ok records) :
    (scrobbleLoop c.header env.now records.length env.submit 0 records).2.1
      + (scrobbleLoop c.header env.now records.length env.submit 0 records).2.2
      = records.length
    ∧ Event.out ("\nScrobbling complete: "
        ++ toString (scrobbleLoop c.header env.now records.length env.submit 0 records).2.1
        ++ " successful, "
        ++ toString (scrobbleLoop c.header env.now records.length env.submit 0 records).2.2
        ++ " failed\n") ∈ (runMain c env).events := by
  constructor
  · exact scrobbleLoop_counts c.header env.now records.length env.submit records 0
  · have hev : (runMain c env).events =
        [Event.out "Authenticating with Last.fm...\n", Event.authCall,
         Event.out "Authentication successful\n",
         Event.out ("Found " ++ toString records.length ++ " tracks to scrobble\n")]
        ++ (scrobbleLoop c.header env.now records.length env.submit 0 records).1
        ++ [Event.out ("\nScrobbling complete: "
            ++ toString (scrobbleLoop c.header env.now records.length env.submit 0 records).2.1
            ++ " successful, "
            ++ toString (scrobbleLoop c.header env.now records.length env.submit 0 records).2.2
            ++ " failed\n")] := by
      unfold runMain
      rw [hhelp, hreq, hauth, hparse]
      rfl
    rw [hev]
    simp

theorem counts_account_all_records_witness :
    (scrobbleLoop false 1000 1 submitAllOk 0 [recAT]).2.1
      + (scrobbleLoop false 1000 1 submitAllOk 0 [recAT]).2.2 = 1
    ∧ Event.out "\nScrobbling complete: 1 successful, 0 failed\n"
        ∈ (runMain cfgOk envOne).events := by
  have h := counts_account_all_records cfgOk envOne [recAT] "sk" rfl rfl rfl rfl
  exact ⟨h.1, h.2⟩

/-- C3: past the help and required-flag checks, the authentication request is
issued exactly once, no submission precedes it, and when it fails the whole
trace is the announcement, the single authentication attempt and the stderr
report: no submission is issued and no row is processed. -/
theorem auth_once_before_any_scrobble (c : Config) (env : Env)
    (hhelp : c.help = false) (hreq : missingRequired c = none) :
    ((runMain c env).events.countP isAuthCall = 1)
    ∧ (((runMain c env).events.takeWhile (fun e => !isAuthCall e)).countP isScrobble = 0)
    ∧ (∀ m, env.authResult = Except.error m →
        (runMain c env).events =
          [Event.out "Authenticating with Last.fm...\n", Event.authCall,
           Event.err ("Error: " ++ m ++ "\n")]
        ∧ ∀ e ∈ (runMain c env).events, isScrobble e = false) := by
  rcases hA : env.authResult with m | k
  · have hev : (runMain c env).events =
        [Event.out "Authenticating with Last.fm...\n", Event.authCall,
         Event.err ("Error: " ++ m ++ "\n")] := by
      unfold runMain; rw [hhelp, hreq, hA]; rfl
    refine ⟨?_, ?_, ?_⟩
    · rw [hev]; simp [List.countP_cons, isAuthCall]
    · rw [hev]; simp [List.takeWhile, List.countP_cons, isAuthCall, isScrobble]
    · intro m' hm'
      injection hm' with hmm
      subst hmm
      refine ⟨hev, ?_⟩
      rw [hev]
      intro e he
      simp only [List.mem_cons, List.not_mem_nil, or_false] at he
      rcases he with rfl | rfl | rfl <;> rfl
  · rcases hP : env.readParse with m | records
    · have hev : (runMain c env).events =
          [Event.out "Authenticating with Last.fm...\n", Event.authCall,
           Event.out "Authentication successful\n", Event.err ("Error: " ++ m ++ "\n")] := by
        unfold runMain; rw [hhelp, hreq, hA, hP]; rfl
      refine ⟨?_, ?_, ?_⟩
      · rw [hev]; simp [List.countP_cons, isAuthCall]
      · rw [hev]; simp [List.takeWhile, List.countP_cons, isAuthCall, isScrobble]
      · intro m' hm'; cases hm'
    · have hev : (runMain c env).events =
          [Event.out "Authenticating with Last.fm...\n", Event.authCall,
           Event.out "Authentication successful\n",
           Event.out ("Found " ++ toString records.length ++ " tracks to scrobble\n")]
          ++ (scrobbleLoop c.header env.now records.length env.submit 0 records).1
          ++ [Event.out ("\nScrobbling complete: "
              ++ toString (scrobbleLoop c.header env.now records.length env.submit 0 records).2.1
              ++ " successful, "
              ++ toString (scrobbleLoop c.header env.now records.length env.submit 0 records).2.2
              ++ " failed\n")] := by
        unfold runMain; rw [hhelp, hreq, hA, hP]; rfl
      refine ⟨?_, ?_, ?_⟩
      · rw [hev]
        simp [List.countP_append, List.countP_cons, isAuthCall,
          scrobbleLoop_countP_authCall c.header env.now records.length env.submit records 0]
      · rw [hev]
        simp [List.takeWhile, List.countP_cons, isAuthCall, isScrobble]
      · intro m' hm'; cases hm'

theorem auth_once_before_any_scrobble_witness :
    (runMain cfgOk envAuthFail).events =
      [Event.out "Authenticating with Last.fm...\n", Event.authCall,
       Event.err "Error: auth failed\n"] :=
  ((auth_once_before_any_scrobble cfgOk envAuthFail rfl rfl).2.2 "auth failed" rfl).1

theorem scrobbleLoop_scrobble_mem (header : Bool) (now N : Nat)
    (submit : Nat → Except String Unit) :
    ∀ (rs : List Record) (i0 i : Nat) (a t : String) (ts : Int),
      Event.scrobbleCall i a t ts ∈ (scrobbleLoop header now N submit i0 rs).1 →
      i0 ≤ i ∧ i < i0 + rs.length ∧ ts = timestampOf now N i
  | [], i0, i, a, t, ts, h => by simp [scrobbleLoop] at h
  | r :: rs, i0, i, a, t, ts, h => by
    simp only [scrobbleLoop, List.mem_append] at h
    rcases h with h | h
    · rcases rowEvents_cases header now N submit i0 r with ⟨msg, hr⟩ | hr | ⟨msg, hr⟩
      · rw [hr] at h; simp at h
      · rw [hr] at h
        simp at h
        obtain ⟨rfl, -, -, rfl⟩ := h
        exact ⟨Nat.le_refl _, by simp [List.length_cons], rfl⟩
      · rw [hr] at h
        simp at h
        obtain ⟨rfl, -, -, rfl⟩ := h
        exact ⟨Nat.le_refl _, by simp [List.length_cons], rfl⟩
    · obtain ⟨h1, h2, h3⟩ := scrobbleLoop_scrobble_mem header now N submit rs (i0 + 1) i a t ts h
      refine ⟨by omega, ?_, h3⟩
      simp only [List.length_cons]
      omega

/-- C4: every submitted timestamp equals the current Unix time in seconds minus
(N - i) * 30 for the 0-based index i of the row among the N records; the
timestamps are strictly increasing in the row index and every submitted
timestamp is strictly less than the current time. -/
theorem scrobble_timestamp_correct (c : Config) (env : Env) (records : List Record)
    (hhelp : c.help = false) (hreq : missingRequired c = none)
    (hparse : env.readParse = Except.ok records) :
    ∀ i a t ts, Event.scrobbleCall i a t ts ∈ (runMain c env).events →
      ts = timestampOf env.now records.length i
      ∧ i < records.length
      ∧ ts < (env.now : Int)
      ∧ timestampOf env.now records.length i
          < timestampOf env.now records.length (i + 1) := by
  intro i a t ts hmem
  rcases hA : env.authResult with m | k
  · have hev : (runMain c env).events =
        [Event.out "Authenticating with Last.fm...\n", Event.authCall,
         Event.err ("Error: " ++ m ++ "\n")] := by
      unfold runMain; rw [hhelp, hreq, hA]; rfl
    rw [hev] at hmem
    simp at hmem
  · have hev : (runMain c env).events =
        [Event.out "Authenticating with Last.fm...\n", Event.authCall,
         Event.out "Authentication successful\n",
         Event.out ("Found " ++ toString records.length ++ " tracks to scrobble\n")]
        ++ (scrobbleLoop c.header env.now records.length env.submit 0 records).1
        ++ [Event.out ("\nScrobbling complete: "
            ++ toString (scrobbleLoop c.header env.now records.length env.submit 0 records).2.1
            ++ " successful, "
            ++ toString (scrobbleLoop c.header env.now records.length env.submit 0 records).2.2
            ++ " failed\n")] := by
      unfold runMain; rw [hhelp, hreq, hA, hparse]; rfl
    rw [hev] at hmem
    simp at hmem
    obtain ⟨h0, hlt, hts⟩ :=
      scrobbleLoop_scrobble_mem c.header env.now records.length env.submit
        records 0 i a t ts hmem
    have hi : i < records.length := by omega
    refine ⟨hts, hi, ?_, ?_⟩
    · rw [hts]
      unfold timestampOf
      omega
    · unfold timestampOf
      omega

theorem scrobble_timestamp_correct_witness :
    (970 : Int) = timestampOf 1000 1 0
    ∧ 0 < 1
    ∧ (970 : Int) < (1000 : Int)
    ∧ timestampOf 1000 1 0 < timestampOf 1000 1 1 :=
  scrobble_timestamp_correct cfgOk envOne [recAT] rfl rfl rfl 0 "A" "T" 970 (by decide)

/-- C7: a per-row submission failure does not abort the loop: the events of the
remaining rows always follow the events of the current row whatever its
outcome; concretely, in a three-row run whose second submission fails remotely,
rows one and three still submit and the final tally is 2 successful, 1
failed, with a clean exit. -/
theorem submission_failure_isolated :
    (∀ header now N submit i r rs,
        (scrobbleLoop header now N submit i (r :: rs)).1 =
          (rowEvents header now N submit i r).1
            ++ (scrobbleLoop header now N submit (i + 1) rs).1)
    ∧ Event.scrobbleCall 0 "A1" "T1" (timestampOf 1000 3 0) ∈ (runMain cfgOk envThree).events
    ∧ Event.scrobbleCall 2 "A3" "T3" (timestampOf 1000 3 2) ∈ (runMain cfgOk envThree).events
    ∧ Event.out "\nScrobbling complete: 2 successful, 1 failed\n"
        ∈ (runMain cfgOk envThree).events
    ∧ (runMain cfgOk envThree).outcome = Outcome.exited 0 := by
  refine ⟨?_, ?_, ?_, ?_, ?_⟩
  · intro header now N submit i r rs
    simp [scrobbleLoop]
  · decide
  · decide
  · decide
  · decide

/-- C8: exit code 0 on help and on normal completion, including runs with
per-row failures; exit code 1 on the first missing required flag and, with
debug off, on any top-level failure (authentication or read/parse); with debug
on, a top-level failure propagates as an unhandled fault instead of a clean
exit code. -/
theorem exit_codes_correct (c : Config) (env : Env) :
    (c.help = true → (runMain c env).outcome = Outcome.exited 0)
    ∧ (c.help = false → ∀ p, missingRequired c = some p →
        (runMain c env).outcome = Outcome.exited 1)
    ∧ (c.help = false → missingRequired c = none →
        ∀ k records, env.authResult = Except.ok k → env.readParse = Except.ok records →
        (runMain c env).outcome = Outcome.exited 0)
    ∧ (c.help = false → missingRequired c = none → c.debug = false →
        ∀ m, env.authResult = Except.error m →
        (runMain c env).outcome = Outcome.exited 1)
    ∧ (c.help = false → missingRequired c = none → c.debug = false →
        ∀ k m, env.authResult = Except.ok k → env.readParse = Except.error m →
        (runMain c env).outcome = Outcome.exited 1)
    ∧ (c.help = false → missingRequired c = none → c.debug = true →
        ∀ m, env.authResult = Except.error m →
        (runMain c env).outcome = Outcome.faulted m)
    ∧ (c.help = false → missingRequired c = none → c.debug = true →
        ∀ k m, env.authResult = Except.ok k → env.readParse = Except.error m →
        (runMain c env).outcome = Outcome.faulted m) := by
  refine ⟨?_, ?_, ?_, ?_, ?_, ?_, ?_⟩
  · intro h1
    unfold runMain; rw [h1]; rfl
  · intro h1 p h2
    unfold runMain; rw [h1, h2]; rfl
  · intro h1 h2 k records h3 h4
    unfold runMain; rw [h1, h2, h3, h4]; rfl
  · intro h1 h2 h3 m h4
    unfold runMain; rw [h1, h2, h4, h3]; rfl
  · intro h1 h2 h3 k m h4 h5
    unfold runMain; rw [h1, h2, h4, h5, h3]; rfl
  · intro h1 h2 h3 m h4
    unfold runMain; rw [h1, h2, h4, h3]; rfl
  · intro h1 h2 h3 k m h4 h5
    unfold runMain; rw [h1, h2, h4, h5, h3]; rfl

theorem exit_codes_correct_witness :
    (runMain cfgHelp envOne).outcome = Outcome.exited 0
    ∧ (runMain cfgMissing envOne).outcome = Outcome.exited 1
    ∧ (runMain cfgOk envOne).outcome = Outcome.exited 0
    ∧ (runMain cfgOk envAuthFail).outcome = Outcome.exited 1
    ∧ (runMain cfgDebug envAuthFail).outcome = Outcome.faulted "auth failed" := by
  refine ⟨?_, ?_, ?_, ?_, ?_⟩
  · exact (exit_codes_correct cfgHelp envOne).1 rfl
  · exact (exit_codes_correct cfgMissing envOne).2.1 rfl "api-key" (by decide)
  · exact (exit_codes_correct cfgOk envOne).2.2.1 rfl rfl "sk" [recAT] rfl rfl
  · exact (exit_codes_correct cfgOk envAuthFail).2.2.2.1 rfl rfl rfl "auth failed" rfl
  · exact (exit_codes_correct cfgDebug envAuthFail).2.2.2.2.2.1 rfl rfl rfl "auth failed" rfl

theorem normOpt_jsOr (a b : Option String) :
    normOpt (jsOr a b) =
      match normOpt a with
      | some v => some v
      | none => normOpt b := by
  rcases a with _ | s
  · rfl
  · by_cases h : s = ""
    · subst h; rfl
    · have h1 : jsOr (some s) b = some s := by simp [jsOr, h]
      have h2 : normOpt (some s) = some s := by simp [normOpt, falsy, h]
      rw [h1, h2]

theorem normOpt_lookup (fs : List (String × String)) (k : String) :
    normOpt (fs.lookup k) = truthyLookup fs k := by
  unfold truthyLookup
  rcases h : fs.lookup k with _ | v
  · rfl
  · by_cases hv : v = ""
    · subst hv; rfl
    · simp [normOpt, falsy, hv]

/-- C5: in header mode, the resolved artist is the field under artist or else
Artist, and the resolved track is the first match among track, Track, title and
Title in that priority order, where a falsy (absent or empty) field never
counts as a match; in particular, with header row Title,Artist and data row
Paranoid Android,Radiohead, the artist resolves to Radiohead and the track to
Paranoid Android. -/
theorem header_resolution_correct :
    (∀ fs : List (String × String),
        normOpt (resolveArtist true (Record.byName fs)) = specArtist fs
        ∧ normOpt (resolveTrack true (Record.byName fs)) = specTrack fs)
    ∧ ((parseCsvModel ',' true "Title,Artist\nParanoid Android,Radiohead").map
        (fun r => (resolveArtist true r, resolveTrack true r))
        = [(some "Radiohead", some "Paranoid Android")]) := by
  constructor
  · intro fs
    constructor
    · show normOpt (jsOr (fs.lookup "artist") (fs.lookup "Artist")) = specArtist fs
      rw [normOpt_jsOr, normOpt_lookup, normOpt_lookup]
      cases h1 : truthyLookup fs "artist"
      · cases h2 : truthyLookup fs "Artist"
        · simp [specArtist, firstMatch, h1, h2]
        · simp [specArtist, firstMatch, h1, h2]
      · simp [specArtist, firstMatch, h1]
    · show normOpt (jsOr (fs.lookup "track") (jsOr (fs.lookup "Track")
          (jsOr (fs.lookup "title") (fs.lookup "Title")))) = specTrack fs
      rw [normOpt_jsOr, normOpt_jsOr, normOpt_jsOr,
        normOpt_lookup, normOpt_lookup, normOpt_lookup, normOpt_lookup]
      cases h1 : truthyLookup fs "track"
      · cases h2 : truthyLookup fs "Track"
        · cases h3 : truthyLookup fs "title"
          · cases h4 : truthyLookup fs "Title"
            · simp [specTrack, firstMatch, h1, h2, h3, h4]
            · simp [specTrack, firstMatch, h1, h2, h3, h4]
          · simp [specTrack, firstMatch, h1, h2, h3]
        · simp [specTrack, firstMatch, h1, h2]
      · simp [specTrack, firstMatch, h1]
  · decide

end Scrobble
